import Mathlib

/-!
Verification of the saaslib repository's specification against a shallow
embedding of its code: the Turnstile CAPTCHA service and controller, the
EmailService provider selection and send path, and (from the spec, whose
implementing code is not in the provided sources) the refresh-token
service and the ownership policy defaults.
-/

/-- JavaScript truthiness of an optional string value: `undefined`/`null`
and the empty string are falsy, every other string is truthy. Used to
model conditions such as `if (process.env.X)` and `if (expectedAction)`. -/
def jsTruthy : Option String → Bool
  | none => false
  | some s => !(s == "")

/-- JavaScript `a || b` on optional string values: yields `a` when `a` is
truthy, otherwise `b`. -/
def jsOr (a b : Option String) : Option String :=
  if jsTruthy a then a else b

namespace Turnstile

/-- The parsed JSON body of a Cloudflare Turnstile siteverify response, as
read by `base-turnstile.service.ts`: `success`, optional `action` and
`hostname`, the `error-codes` array, and the challenge timestamp
`challenge_ts` (modelled as milliseconds since epoch, the value
`new Date(validation.challenge_ts).getTime()` evaluates to). -/
structure SiteverifyResponse where
  success : Bool
  action : Option String
  hostname : Option String
  errorCodes : List String
  challengeTs : Int
deriving Repr, DecidableEq

/-- Result of `BaseTurnstileService.validateTurnstileEnhanced`: each
invalid constructor carries the `reason` string of the source's returned
object; `valid` carries the response data and the computed `tokenAge`
in minutes (a rational, standing for the source's floating-point
`ageMinutes`). -/
inductive EnhancedResult where
  | turnstileFailed (errors : List String)
  | actionMismatch (expected : String) (received : Option String)
  | hostnameMismatch (expected : String) (received : Option String)
  | valid (data : SiteverifyResponse) (tokenAge : ℚ)
deriving Repr, DecidableEq

/-- `BaseTurnstileService.validateTurnstile`: the fetch of the siteverify
endpoint together with `response.json()` is modelled as an
`Except String SiteverifyResponse` (the `error` case is a thrown network
or body-parse error). The source's catch block logs and returns the
object `{ success: false, 'error-codes': ['internal-error'] }`; its
absent `action`/`hostname` fields are `none` and its absent
`challenge_ts` is never read on the failure path, represented as 0. -/
def validateTurnstile (fetchOutcome : Except String SiteverifyResponse) :
    SiteverifyResponse :=
  match fetchOutcome with
  | .ok r => r
  | .error _ =>
      { success := false, action := none, hostname := none,
        errorCodes := ["internal-error"], challengeTs := 0 }

/-- `BaseTurnstileService.validateTurnstileEnhanced(token, remoteip,
expectedAction?, expectedHostname?)`: checks `success`, then the action
guard `expectedAction && validation.action !== expectedAction`, then the
hostname guard, then computes `ageMinutes` from `now` (milliseconds) and
returns the valid result. The token and remoteip strings only feed the
fetch, which is abstracted by `fetchOutcome`. -/
def validateTurnstileEnhanced (fetchOutcome : Except String SiteverifyResponse)
    (expectedAction expectedHostname : Option String) (now : Int) :
    EnhancedResult :=
  let validation := validateTurnstile fetchOutcome
  if !validation.success then
    .turnstileFailed validation.errorCodes
  else if jsTruthy expectedAction && !(validation.action == expectedAction) then
    .actionMismatch (expectedAction.getD "") validation.action
  else if jsTruthy expectedHostname && !(validation.hostname == expectedHostname) then
    .hostnameMismatch (expectedHostname.getD "") validation.hostname
  else
    .valid validation (((now - validation.challengeTs : Int) : ℚ) / (1000 * 60))

/-- Whether `validateTurnstileEnhanced` emits the `console.warn` about an
old token: only on the valid path, and only when `ageMinutes > 4`. -/
def validateTurnstileEnhancedWarns (fetchOutcome : Except String SiteverifyResponse)
    (expectedAction expectedHostname : Option String) (now : Int) : Bool :=
  let validation := validateTurnstile fetchOutcome
  if !validation.success then false
  else if jsTruthy expectedAction && !(validation.action == expectedAction) then false
  else if jsTruthy expectedHostname && !(validation.hostname == expectedHostname) then false
  else decide ((((now - validation.challengeTs : Int) : ℚ) / (1000 * 60)) > 4)

/-- The JSON body of the `BadRequestException` thrown by
`BaseTurnstileController.handleFormSubmission`. -/
structure BadRequestBody where
  message : String
  reason : String
  errors : Option (List String)
deriving Repr, DecidableEq

/-- The success body `{ ok: true }` returned by the controller. -/
structure FormOk where
  ok : Bool
deriving Repr, DecidableEq

/-- The request headers the controller reads for the client IP. -/
structure RequestHeaders where
  cfConnectingIp : Option String
  xForwardedFor : Option String
deriving Repr, DecidableEq

/-- Whether an `EnhancedResult` has `valid: true`. -/
def EnhancedResult.isValid : EnhancedResult → Bool
  | .valid _ _ => true
  | _ => false

/-- The `reason` field of an invalid result, as the controller reads it.
On the valid result the source object has no `reason` field and the
controller never reads it there; "" stands for that unread value. -/
def EnhancedResult.reasonOf : EnhancedResult → String
  | .turnstileFailed _ => "turnstile_failed"
  | .actionMismatch _ _ => "action_mismatch"
  | .hostnameMismatch _ _ => "hostname_mismatch"
  | .valid _ _ => ""

/-- The controller's `(result as any).errors ?? null`: only the
`turnstile_failed` result carries an `errors` field. -/
def EnhancedResult.errorsOf : EnhancedResult → Option (List String)
  | .turnstileFailed es => some es
  | _ => none

/-- `BaseTurnstileController.handleFormSubmission`: computes the client
IP as `cf-connecting-ip || x-forwarded-for || req.ip || null`, calls the
validator with the literal action 'signup' and the hostname of the
configured frontend endpoint (`frontendHostname` stands for
`new URL(process.env.FRONTEND_ENDPOINT || '').hostname`), throws a
`BadRequestException` when invalid and returns `{ ok: true }` otherwise.
The injected service is abstracted as the `validator` function. -/
def handleFormSubmission
    (validator : String → Option String → Option String → Option String → EnhancedResult)
    (frontendHostname : String) (headers : RequestHeaders) (reqIp : Option String)
    (token : String) : Except BadRequestBody FormOk :=
  let ip := jsOr headers.cfConnectingIp (jsOr headers.xForwardedFor (jsOr reqIp none))
  let result := validator token ip (some "signup") (some frontendHostname)
  if result.isValid then
    .ok { ok := true }
  else
    .error { message := "Invalid Turnstile verification",
             reason := result.reasonOf, errors := result.errorsOf }

end Turnstile

namespace Email

/-- The environment variables `EmailService`'s constructor reads. -/
structure EmailEnv where
  mailersendApiKey : Option String
  sendgridApiKey : Option String
  awsSesAccessKeyId : Option String
  awsSesSecretAccessKey : Option String
  awsSesRegion : Option String
deriving Repr, DecidableEq

/-- The `EmailConfigOptions` fields `sendEmail` reads: `from` (named
`sender` here, `from` being a Lean keyword) and the optional
`senderName`. -/
structure EmailConfigOptions where
  sender : String
  senderName : Option String
deriving Repr, DecidableEq

/-- The SES client configuration built in the constructor. -/
structure SesClientConfig where
  region : Option String
  accessKeyId : Option String
  secretAccessKey : Option String
deriving Repr, DecidableEq

/-- The provider fields of `EmailService` set once by its constructor:
`mailerSendClient` (holding its api key when constructed),
`sendGridEnabled`, and `sesClient`. -/
structure EmailServiceState where
  mailerSendClient : Option String
  sendGridEnabled : Bool
  sesClient : Option SesClientConfig
deriving Repr, DecidableEq

/-- `EmailService`'s constructor: an if/else-if chain on the truthiness
of `MAILERSEND_API_KEY`, `SENDGRID_API_KEY` and `AWS_SES_ACCESS_KEY_ID`,
so at most one branch runs; fields start as
`undefined`/`false`/`undefined`. -/
def construct (env : EmailEnv) : EmailServiceState :=
  if jsTruthy env.mailersendApiKey then
    { mailerSendClient := env.mailersendApiKey, sendGridEnabled := false,
      sesClient := none }
  else if jsTruthy env.sendgridApiKey then
    { mailerSendClient := none, sendGridEnabled := true, sesClient := none }
  else if jsTruthy env.awsSesAccessKeyId then
    { mailerSendClient := none, sendGridEnabled := false,
      sesClient := some { region := env.awsSesRegion,
                          accessKeyId := env.awsSesAccessKeyId,
                          secretAccessKey := env.awsSesSecretAccessKey } }
  else
    { mailerSendClient := none, sendGridEnabled := false, sesClient := none }

/-- How many of the three providers are active in a service state. -/
def activeProviders (st : EmailServiceState) : Nat :=
  (if st.mailerSendClient.isSome then 1 else 0) +
    (if st.sendGridEnabled then 1 else 0) +
    (if st.sesClient.isSome then 1 else 0)

/-- The observable events of a `sendEmail` call: logger calls, console
output, and the one outbound provider call with its arguments. -/
inductive EmailEvent where
  | logInfo (msg : String)
  | logError (msg : String)
  | logWarn (msg : String)
  | consoleLog (msg : String)
  | mailerSendCall (fromEmail senderName : String)
      (recipients : List (String × String)) (subject body : String)
  | sendGridCall (toAddrs : List String) (sender subject body : String)
      (unsubHeader : Option String)
  | sesCall (source : String) (toAddrs : List String) (subject body : String)
      (unsubHeader : Option String)
deriving Repr, DecidableEq

/-- Result of a `sendEmail` call: the emitted events in order, and the
message of the `Error` it throws, if any (`none` = normal return). -/
structure SendResult where
  logs : List EmailEvent
  thrown : Option String
deriving Repr, DecidableEq

/-- The regex capture `from.match(/<([^>]+)>/)`: the first nonempty run
of non-'>' characters enclosed in angle brackets, scanning left to
right. -/
def angleCapture : List Char → Option (List Char)
  | [] => none
  | c :: rest =>
      if c == '<' then
        let run := rest.takeWhile (fun d => !(d == '>'))
        match rest.drop run.length with
        | d :: _ =>
            if d == '>' && !run.isEmpty then some run else angleCapture rest
        | [] => angleCapture rest
      else
        angleCapture rest

/-- Outcomes of the provider calls `sendEmail` may make: whether each
provider's asynchronous send resolves or rejects, and the `MessageId`
the SES response carries on success. -/
structure ProviderOutcomes where
  mailerSendOk : Bool
  sendGridOk : Bool
  sesOk : Bool
  sesMessageId : String
deriving Repr, DecidableEq

/-- The `List-Unsubscribe` header value both SendGrid and SES branches
build from the configured `from` address and the unsubscribe URL. -/
def unsubHeaderValue (sender url : String) : String :=
  "<mailto:" ++ sender ++ "?subject=unsubscribe>, <" ++ url ++ ">"

/-- `EmailService.sendEmail(to, subject, body, unsubscribeUrl?)` (the `to` array is `toAddrs`, `to` being a Lean keyword),
faithful to the source's branch order: MailerSend if its client exists,
else SendGrid if enabled, else the console fallback when no SES client
exists, else SES. Each provider branch records the outbound call and, on
rejection, logs the error and throws. (The SendGrid branch's extra
`error.response.body` log, which depends on the opaque error object, is
elided.) -/
def sendEmail (st : EmailServiceState) (cfg : EmailConfigOptions)
    (oc : ProviderOutcomes) (toAddrs : List String) (subject body : String)
    (unsubscribeUrl : Option String) : SendResult :=
  let toStr := String.intercalate "," toAddrs
  let formattedSender :=
    if jsTruthy cfg.senderName then
      cfg.senderName.getD "" ++ " <" ++ cfg.sender ++ ">"
    else cfg.sender
  match st.mailerSendClient with
  | some _ =>
      let fromEmail :=
        match angleCapture cfg.sender.data with
        | some cs => String.mk cs
        | none => cfg.sender.trim
      let senderName := if jsTruthy cfg.senderName then cfg.senderName.getD "" else "NailVision"
      let recipients := toAddrs.map (fun r => (r, (r.splitOn "@").headD ""))
      let callEv := EmailEvent.mailerSendCall fromEmail senderName recipients subject body
      if oc.mailerSendOk then
        { logs := [callEv, .logInfo ("Email sent to " ++ toStr ++ " via MailerSend")],
          thrown := none }
      else
        { logs := [callEv, .logError "Failed to send email via MailerSend:"],
          thrown := some "Failed to send email via MailerSend" }
  | none =>
  if st.sendGridEnabled then
    let unsubHeader := unsubscribeUrl.map (unsubHeaderValue cfg.sender)
    let callEv := EmailEvent.sendGridCall toAddrs formattedSender subject body unsubHeader
    if oc.sendGridOk then
      { logs := [.consoleLog "Sending email via SendGrid", callEv,
                 .logInfo ("Email sent to " ++ toStr ++ " via SendGrid")],
        thrown := none }
    else
      { logs := [.consoleLog "Sending email via SendGrid", callEv,
                 .logError "Failed to send email via SendGrid:"],
        thrown := some "Failed to send email via SendGrid" }
  else
    match st.sesClient with
    | none =>
        { logs := [.logWarn "AWS SES and SendGrid not configured, email not sent.",
                   .consoleLog ("\n\nTo: " ++ String.intercalate ", " toAddrs),
                   .consoleLog ("Subject: " ++ subject),
                   .consoleLog (body ++ "\n\n")],
          thrown := none }
    | some _ =>
        let unsubHeader := unsubscribeUrl.map (unsubHeaderValue cfg.sender)
        let callEv := EmailEvent.sesCall formattedSender toAddrs subject body unsubHeader
        if oc.sesOk then
          { logs := [callEv,
                     .logInfo ("Email " ++ oc.sesMessageId ++ " sent to " ++ toStr)],
            thrown := none }
        else
          { logs := [callEv, .logError "Failed to send email:"],
            thrown := some "Failed to send email" }

end Email

namespace TokenService

/-- Modelled from the spec: the Token Service's implementation is not in
the provided sources (only the spec's §3 and §4.1 describe it). A
Refresh Token Record: opaque token id, owning user id, family id shared
by all tokens descending from one login, issued-at, expires-at, revoked
flag, and the pointer to the superseding token (null until rotated).
Times and ids are naturals. -/
structure RefreshTokenRecord where
  tokenId : Nat
  userId : Nat
  familyId : Nat
  issuedAt : Nat
  expiresAt : Nat
  revoked : Bool
  supersededBy : Option Nat
deriving Repr, DecidableEq

/-- Modelled from the spec: the persistent store of refresh-token
records, with a counter supplying fresh unguessable ids (fresh family
ids at `issue`, fresh token ids at `issue` and `refresh`). -/
structure TokenStore where
  records : List RefreshTokenRecord
  nextId : Nat
deriving Repr, DecidableEq

/-- A record is live at time `now`: non-revoked, unexpired,
unsuperseded (spec §3). -/
def RefreshTokenRecord.live (now : Nat) (r : RefreshTokenRecord) : Bool :=
  !r.revoked && decide (now < r.expiresAt) && r.supersededBy == none

/-- The time-independent part of liveness: non-revoked and
unsuperseded. A record is live at some time only if it is an active
branch tip. -/
def RefreshTokenRecord.activeTip (r : RefreshTokenRecord) : Bool :=
  !r.revoked && r.supersededBy == none

/-- Modelled from the spec: `revoke(familyId)` marks all records of the
family revoked. -/
def TokenStore.revokeFamily (s : TokenStore) (familyId : Nat) : TokenStore :=
  { s with records := s.records.map (fun r =>
      if r.familyId == familyId then { r with revoked := true } else r) }

/-- Modelled from the spec: `revoke(userId)` marks all of the user's
records revoked (sign-out or security events). -/
def TokenStore.revokeUser (s : TokenStore) (userId : Nat) : TokenStore :=
  { s with records := s.records.map (fun r =>
      if r.userId == userId then { r with revoked := true } else r) }

/-- Modelled from the spec: `issue(userId)` creates a new refresh-token
family (fresh family id) holding one live record, and returns the new
family id and refresh-token id. `ttl` is the refresh token's lifetime. -/
def TokenStore.issue (s : TokenStore) (userId now ttl : Nat) :
    TokenStore × Nat × Nat :=
  let familyId := s.nextId
  let tokenId := s.nextId + 1
  let newRec : RefreshTokenRecord :=
    { tokenId := tokenId, userId := userId, familyId := familyId,
      issuedAt := now, expiresAt := now + ttl, revoked := false,
      supersededBy := none }
  ({ records := s.records ++ [newRec], nextId := s.nextId + 2 }, familyId, tokenId)

/-- Modelled from the spec: the outcome of `refresh` — a rotated pair
(carrying the new refresh-token id) or `AuthError`
`Unknown`/`Expired`/`ReuseDetected`. -/
inductive RefreshOutcome where
  | rotated (newTokenId : Nat)
  | unknown
  | expired
  | reuseDetected
deriving Repr, DecidableEq

/-- Modelled from the spec (§4.1): `refresh(refreshToken)` looks the
record up by token id; absent → `Unknown`; expired → `Expired`; not
live (already revoked or already superseded) → revoke the whole family
and return `ReuseDetected`; otherwise atomically mark the record
superseded and create a new live record in the same family. -/
def TokenStore.refresh (s : TokenStore) (tokenId now ttl : Nat) :
    TokenStore × RefreshOutcome :=
  match s.records.find? (fun r => r.tokenId == tokenId) with
  | none => (s, .unknown)
  | some r =>
      if r.expiresAt ≤ now then (s, .expired)
      else if r.revoked || !(r.supersededBy == none) then
        (s.revokeFamily r.familyId, .reuseDetected)
      else
        let newId := s.nextId
        let newRec : RefreshTokenRecord :=
          { tokenId := newId, userId := r.userId, familyId := r.familyId,
            issuedAt := now, expiresAt := now + ttl, revoked := false,
            supersededBy := none }
        ({ records :=
             (s.records.map (fun q =>
               if q.tokenId == tokenId then { q with supersededBy := some newId }
               else q)) ++ [newRec],
           nextId := s.nextId + 1 }, .rotated newId)

/-- Modelled from the spec: the store operations a caller can perform. -/
inductive TokenOp where
  | issue (userId now ttl : Nat)
  | refresh (tokenId now ttl : Nat)
  | revokeFamily (familyId : Nat)
  | revokeUser (userId : Nat)
deriving Repr, DecidableEq

/-- One operation's effect on the store. -/
def TokenStore.step (s : TokenStore) : TokenOp → TokenStore
  | .issue u now ttl => (s.issue u now ttl).1
  | .refresh t now ttl => (s.refresh t now ttl).1
  | .revokeFamily f => s.revokeFamily f
  | .revokeUser u => s.revokeUser u

/-- The empty store. -/
def TokenStore.empty : TokenStore := { records := [], nextId := 0 }

/-- Running a list of operations from a given store. -/
def TokenStore.runFrom (s : TokenStore) (ops : List TokenOp) : TokenStore :=
  ops.foldl TokenStore.step s

/-- A reachable store: the result of running operations from the empty
store. -/
def TokenStore.run (ops : List TokenOp) : TokenStore :=
  TokenStore.runFrom TokenStore.empty ops

/-- Well-formedness: every stored id is below the freshness counter. -/
def TokenStore.wf (s : TokenStore) : Prop :=
  ∀ r ∈ s.records, r.tokenId < s.nextId ∧ r.familyId < s.nextId

/-- The number of active branch tips a family holds. -/
def TokenStore.activeInFamily (s : TokenStore) (f : Nat) : Nat :=
  s.records.countP (fun r => r.familyId == f && r.activeTip)

/-- A family every record of which is revoked. -/
def TokenStore.familyAllRevoked (s : TokenStore) (f : Nat) : Prop :=
  ∀ r ∈ s.records, r.familyId = f → r.revoked = true

end TokenService

namespace Owneable

/-- Modelled from the spec: the viewer identity an
`OwneableEntityService` capability check receives (`user: User | null`);
only its id takes part in the default checks. -/
structure ViewerUser where
  id : Nat
deriving Repr, DecidableEq

/-- Modelled from the spec: an ownable resource — any domain entity with
an `owner` reference to a User Identity's id. -/
structure OwneableEntity where
  owner : Nat
deriving Repr, DecidableEq

/-- Modelled from the spec: the default `canView(resource, viewer)` of
the Ownership Policy Engine — true exactly when the viewer exists and
its id equals the resource's owner id. -/
def canView (entity : OwneableEntity) (user : Option ViewerUser) : Bool :=
  match user with
  | none => false
  | some u => u.id == entity.owner

/-- Modelled from the spec: the default `canEdit` — owner-only, same as
`canView`. -/
def canEdit (entity : OwneableEntity) (user : Option ViewerUser) : Bool :=
  match user with
  | none => false
  | some u => u.id == entity.owner

/-- Modelled from the spec: the default `canDelete` — owner-only, same
as `canView`. -/
def canDelete (entity : OwneableEntity) (user : Option ViewerUser) : Bool :=
  match user with
  | none => false
  | some u => u.id == entity.owner

end Owneable

section TurnstileClaims

open Turnstile

/-- Claim C4: the CAPTCHA gate fails closed on network failure — when
the HTTP request to the siteverify endpoint throws (network error, bad
response body), `validateTurnstileEnhanced` does not raise and returns
the invalid result with reason `turnstile_failed` and errors
`['internal-error']`, so a transport error can never be mistaken for a
passed check. -/
theorem validateTurnstileEnhanced_fails_closed_on_throw
    (errMsg : String) (ea eh : Option String) (now : Int) :
    validateTurnstileEnhanced (.error errMsg) ea eh now =
      .turnstileFailed ["internal-error"] := by
  simp [validateTurnstileEnhanced, validateTurnstile]

/-- Claim C3, counterexample: with the non-null expected action `""`
(which is falsy in JavaScript) and a response whose action is `signup`,
the expected action is non-null and differs from the response's action,
yet `validateTurnstileEnhanced` returns a valid result instead of the
`action_mismatch` rejection the claim requires. -/
theorem validateTurnstileEnhanced_empty_action_counterexample :
    validateTurnstileEnhanced
        (.ok { success := true, action := some "signup",
               hostname := some "example.com", errorCodes := [],
               challengeTs := 0 })
        (some "") (some "example.com") 0 =
      .valid { success := true, action := some "signup",
               hostname := some "example.com", errorCodes := [],
               challengeTs := 0 } 0 ∧
    (some "" : Option String) ≠ none ∧
    (some "signup" : Option String) ≠ some "" := by
  refine ⟨?_, by decide, by decide⟩
  simp [validateTurnstileEnhanced, validateTurnstile, jsTruthy]

/-- Claim C3 (amended): `validateTurnstileEnhanced` returns the
`turnstile_failed` result with the response's error codes exactly when
the siteverify response has `success = false`; when `success = true` it
returns `action_mismatch` if a non-empty (JavaScript-truthy) expected
action differs from the response's action, else `hostname_mismatch` if a
non-empty expected hostname differs from the response's hostname, and
otherwise the valid result with the response data and the numeric token
age — every invalid result carries a reason and the checks are applied
in that order. (The claim's "non-null" is amended to "non-empty": the
source tests the expected values for truthiness, so the non-null empty
string is skipped, per the counterexample.) -/
theorem validateTurnstileEnhanced_check_order
    (r : SiteverifyResponse) (ea eh : Option String) (now : Int) :
    (∀ es, validateTurnstileEnhanced (.ok r) ea eh now = .turnstileFailed es ↔
        (r.success = false ∧ es = r.errorCodes)) ∧
    (r.success = true → jsTruthy ea = true → r.action ≠ ea →
        validateTurnstileEnhanced (.ok r) ea eh now =
          .actionMismatch (ea.getD "") r.action) ∧
    (r.success = true → (jsTruthy ea = false ∨ r.action = ea) →
        jsTruthy eh = true → r.hostname ≠ eh →
        validateTurnstileEnhanced (.ok r) ea eh now =
          .hostnameMismatch (eh.getD "") r.hostname) ∧
    (r.success = true → (jsTruthy ea = false ∨ r.action = ea) →
        (jsTruthy eh = false ∨ r.hostname = eh) →
        validateTurnstileEnhanced (.ok r) ea eh now =
          .valid r (((now - r.challengeTs : Int) : ℚ) / (1000 * 60))) := by
  obtain ⟨succ, act, host, errs, ts⟩ := r
  cases succ with
  | false =>
      simp [validateTurnstileEnhanced, validateTurnstile]
      exact fun es => eq_comm
  | true =>
      refine ⟨?_, ?_, ?_, ?_⟩
      · intro es
        simp only [validateTurnstileEnhanced, validateTurnstile]
        constructor
        · intro h
          by_cases h1 : (jsTruthy ea && !(act == ea)) = true <;>
            by_cases h2 : (jsTruthy eh && !(host == eh)) = true <;>
            simp [h1, h2] at h
        · rintro ⟨h, _⟩
          simp at h
      · intro _ h1 h2
        replace h2 : act ≠ ea := h2
        simp [validateTurnstileEnhanced, validateTurnstile, h1, h2]
      · intro _ hc h1 h2
        replace hc : jsTruthy ea = false ∨ act = ea := hc
        replace h2 : host ≠ eh := h2
        rcases hc with h | h <;>
          simp [validateTurnstileEnhanced, validateTurnstile, h, h1, h2]
      · intro _ hca hch
        replace hca : jsTruthy ea = false ∨ act = ea := hca
        replace hch : jsTruthy eh = false ∨ host = eh := hch
        rcases hca with h | h <;> rcases hch with h2 | h2 <;>
          simp [validateTurnstileEnhanced, validateTurnstile, h, h2]

/-- Claim C3 (amended), witness: a successful response with matching
non-empty action and hostname yields the valid result. -/
theorem validateTurnstileEnhanced_check_order_witness :
    validateTurnstileEnhanced
        (.ok { success := true, action := some "signup",
               hostname := some "example.com", errorCodes := [],
               challengeTs := 0 })
        (some "signup") (some "example.com") 0 =
      .valid { success := true, action := some "signup",
               hostname := some "example.com", errorCodes := [],
               challengeTs := 0 } 0 := by
  have h := (validateTurnstileEnhanced_check_order
      { success := true, action := some "signup", hostname := some "example.com",
        errorCodes := [], challengeTs := 0 }
      (some "signup") (some "example.com") 0).2.2.2 rfl (Or.inr rfl) (Or.inr rfl)
  rw [h]
  norm_num

/-- Claim C7: token age never causes rejection — for every siteverify
response with `success = true` and matching (or skipped) action and
hostname checks, `validateTurnstileEnhanced` returns `valid = true`
regardless of the challenge timestamp's age; an age above 4 minutes
only triggers the console warning, never an invalid result. -/
theorem turnstile_age_never_rejects
    (r : SiteverifyResponse) (ea eh : Option String) (now : Int)
    (hs : r.success = true)
    (ha : jsTruthy ea = false ∨ r.action = ea)
    (hh : jsTruthy eh = false ∨ r.hostname = eh) :
    validateTurnstileEnhanced (.ok r) ea eh now =
      .valid r (((now - r.challengeTs : Int) : ℚ) / (1000 * 60)) ∧
    (validateTurnstileEnhancedWarns (.ok r) ea eh now = true ↔
      ((now - r.challengeTs : Int) : ℚ) / (1000 * 60) > 4) := by
  obtain ⟨succ, act, host, errs, ts⟩ := r
  cases succ with
  | false => simp at hs
  | true =>
      replace ha : jsTruthy ea = false ∨ act = ea := ha
      replace hh : jsTruthy eh = false ∨ host = eh := hh
      constructor
      · rcases ha with h | h <;> rcases hh with h2 | h2 <;>
          simp [validateTurnstileEnhanced, validateTurnstile, h, h2]
      · rcases ha with h | h <;> rcases hh with h2 | h2 <;>
          simp [validateTurnstileEnhancedWarns, validateTurnstile, h, h2]

/-- Claim C7, witness: a token 100 minutes old still validates (and the
age warning fires). -/
theorem turnstile_age_never_rejects_witness :
    validateTurnstileEnhanced
        (.ok { success := true, action := some "signup",
               hostname := some "example.com", errorCodes := [],
               challengeTs := 0 })
        (some "signup") (some "example.com") 6000000 =
      .valid { success := true, action := some "signup",
               hostname := some "example.com", errorCodes := [],
               challengeTs := 0 } 100 ∧
    validateTurnstileEnhancedWarns
        (.ok { success := true, action := some "signup",
               hostname := some "example.com", errorCodes := [],
               challengeTs := 0 })
        (some "signup") (some "example.com") 6000000 = true := by
  have h := turnstile_age_never_rejects
      { success := true, action := some "signup", hostname := some "example.com",
        errorCodes := [], challengeTs := 0 }
      (some "signup") (some "example.com") 6000000 rfl (Or.inr rfl) (Or.inr rfl)
  constructor
  · rw [h.1]
    norm_num
  · exact h.2.mpr (by norm_num)

/-- Claim C5: `handleFormSubmission` returns `{ ok: true }` exactly when
the validator reports valid; whenever the validator reports invalid it
throws a `BadRequestException` whose body carries the message 'Invalid
Turnstile verification' with the validator's reason and error codes; and
the validator is always called with the expected action 'signup' and the
configured frontend hostname as expected hostname (the call arguments
appear explicitly in both conjuncts). -/
theorem controller_gate_iff
    (validator : String → Option String → Option String → Option String → EnhancedResult)
    (frontendHostname : String) (headers : RequestHeaders) (reqIp : Option String)
    (token : String) :
    (handleFormSubmission validator frontendHostname headers reqIp token =
        .ok { ok := true } ↔
      (validator token
          (jsOr headers.cfConnectingIp (jsOr headers.xForwardedFor (jsOr reqIp none)))
          (some "signup") (some frontendHostname)).isValid = true) ∧
    ((validator token
          (jsOr headers.cfConnectingIp (jsOr headers.xForwardedFor (jsOr reqIp none)))
          (some "signup") (some frontendHostname)).isValid = false →
      handleFormSubmission validator frontendHostname headers reqIp token =
        .error { message := "Invalid Turnstile verification",
                 reason := (validator token
                     (jsOr headers.cfConnectingIp (jsOr headers.xForwardedFor (jsOr reqIp none)))
                     (some "signup") (some frontendHostname)).reasonOf,
                 errors := (validator token
                     (jsOr headers.cfConnectingIp (jsOr headers.xForwardedFor (jsOr reqIp none)))
                     (some "signup") (some frontendHostname)).errorsOf }) := by
  cases hv : (validator token
      (jsOr headers.cfConnectingIp (jsOr headers.xForwardedFor (jsOr reqIp none)))
      (some "signup") (some frontendHostname)) <;>
    simp [handleFormSubmission, hv, EnhancedResult.isValid]

/-- Claim C5, witness: an invalid validator result at concrete inputs
produces the `BadRequestException` body with the reason and error
codes. -/
theorem controller_gate_iff_witness :
    handleFormSubmission (fun _ _ _ _ => .turnstileFailed ["invalid-input-response"])
        "example.com" { cfConnectingIp := some "1.2.3.4", xForwardedFor := none }
        (some "5.6.7.8") "token123" =
      .error { message := "Invalid Turnstile verification",
               reason := "turnstile_failed",
               errors := some ["invalid-input-response"] } := by
  exact (controller_gate_iff (fun _ _ _ _ => .turnstileFailed ["invalid-input-response"])
      "example.com" { cfConnectingIp := some "1.2.3.4", xForwardedFor := none }
      (some "5.6.7.8") "token123").2 rfl

end TurnstileClaims

section EmailClaims

open Email

/-- Claim C2: the email transport selects exactly one active provider,
once, at construction, by which secret is configured (JavaScript-truthy)
in the environment: `MAILERSEND_API_KEY` wins, else `SENDGRID_API_KEY`,
else `AWS_SES_ACCESS_KEY_ID`; in every case at most one of the three is
active for all subsequent `sendEmail` calls (the state is fixed at
construction). -/
theorem emailService_provider_selection (env : EmailEnv) :
    (jsTruthy env.mailersendApiKey = true →
        construct env =
          { mailerSendClient := env.mailersendApiKey, sendGridEnabled := false,
            sesClient := none }) ∧
    (jsTruthy env.mailersendApiKey = false → jsTruthy env.sendgridApiKey = true →
        construct env =
          { mailerSendClient := none, sendGridEnabled := true, sesClient := none }) ∧
    (jsTruthy env.mailersendApiKey = false → jsTruthy env.sendgridApiKey = false →
        jsTruthy env.awsSesAccessKeyId = true →
        construct env =
          { mailerSendClient := none, sendGridEnabled := false,
            sesClient := some { region := env.awsSesRegion,
                                accessKeyId := env.awsSesAccessKeyId,
                                secretAccessKey := env.awsSesSecretAccessKey } }) ∧
    (jsTruthy env.mailersendApiKey = false → jsTruthy env.sendgridApiKey = false →
        jsTruthy env.awsSesAccessKeyId = false →
        construct env =
          { mailerSendClient := none, sendGridEnabled := false, sesClient := none }) ∧
    activeProviders (construct env) ≤ 1 := by
  by_cases h1 : jsTruthy env.mailersendApiKey = true <;>
    by_cases h2 : jsTruthy env.sendgridApiKey = true <;>
    by_cases h3 : jsTruthy env.awsSesAccessKeyId = true <;>
    simp [construct, activeProviders, h1, h2, h3] <;>
    (split <;> simp)

/-- Claim C2, witness: with both the MailerSend and SendGrid secrets
configured, only the MailerSend client is created. -/
theorem emailService_provider_selection_witness :
    construct { mailersendApiKey := some "mlsn.key", sendgridApiKey := some "SG.key",
                awsSesAccessKeyId := none, awsSesSecretAccessKey := none,
                awsSesRegion := none } =
      { mailerSendClient := some "mlsn.key", sendGridEnabled := false,
        sesClient := none } ∧
    activeProviders (construct { mailersendApiKey := some "mlsn.key",
                                 sendgridApiKey := some "SG.key",
                                 awsSesAccessKeyId := none,
                                 awsSesSecretAccessKey := none,
                                 awsSesRegion := none }) ≤ 1 := by
  have h := emailService_provider_selection
      { mailersendApiKey := some "mlsn.key", sendgridApiKey := some "SG.key",
        awsSesAccessKeyId := none, awsSesSecretAccessKey := none,
        awsSesRegion := none }
  exact ⟨h.1 (by decide), h.2.2.2.2⟩

/-- Claim C1, counterexample: with MailerSend configured and the provider
reporting a delivery failure, `sendEmail` logs the failure but then
throws `Error('Failed to send email via MailerSend')` — it raises
instead of returning an outcome to the caller, contradicting the
claim's "send returns an outcome to the caller rather than raising". -/
theorem sendEmail_mailersend_failure_raises :
    (sendEmail
        (construct { mailersendApiKey := some "key", sendgridApiKey := none,
                     awsSesAccessKeyId := none, awsSesSecretAccessKey := none,
                     awsSesRegion := none })
        { sender := "noreply@example.com", senderName := none }
        { mailerSendOk := false, sendGridOk := true, sesOk := true, sesMessageId := "" }
        ["user@example.com"] "Hello" "<p>Hello</p>" none).thrown =
      some "Failed to send email via MailerSend" ∧
    EmailEvent.logError "Failed to send email via MailerSend:" ∈
      (sendEmail
        (construct { mailersendApiKey := some "key", sendgridApiKey := none,
                     awsSesAccessKeyId := none, awsSesSecretAccessKey := none,
                     awsSesRegion := none })
        { sender := "noreply@example.com", senderName := none }
        { mailerSendOk := false, sendGridOk := true, sesOk := true, sesMessageId := "" }
        ["user@example.com"] "Hello" "<p>Hello</p>" none).logs := by
  constructor <;> decide

/-- Claim C1 (amended): whenever the selected provider (MailerSend,
SendGrid, or SES) reports a delivery failure, `sendEmail` logs the
failure and then throws an `Error` to the caller — the failure is
logged, but the call raises rather than returning an outcome; callers
that have already committed a state transition must catch it
themselves. -/
theorem sendEmail_failure_logged_and_thrown
    (st : EmailServiceState) (cfg : EmailConfigOptions) (oc : ProviderOutcomes)
    (toAddrs : List String) (subject body : String) (unsub : Option String) :
    (st.mailerSendClient.isSome = true → oc.mailerSendOk = false →
        (sendEmail st cfg oc toAddrs subject body unsub).thrown =
          some "Failed to send email via MailerSend" ∧
        EmailEvent.logError "Failed to send email via MailerSend:" ∈
          (sendEmail st cfg oc toAddrs subject body unsub).logs) ∧
    (st.mailerSendClient = none → st.sendGridEnabled = true → oc.sendGridOk = false →
        (sendEmail st cfg oc toAddrs subject body unsub).thrown =
          some "Failed to send email via SendGrid" ∧
        EmailEvent.logError "Failed to send email via SendGrid:" ∈
          (sendEmail st cfg oc toAddrs subject body unsub).logs) ∧
    (st.mailerSendClient = none → st.sendGridEnabled = false →
        st.sesClient.isSome = true → oc.sesOk = false →
        (sendEmail st cfg oc toAddrs subject body unsub).thrown =
          some "Failed to send email" ∧
        EmailEvent.logError "Failed to send email:" ∈
          (sendEmail st cfg oc toAddrs subject body unsub).logs) := by
  obtain ⟨msc, sge, ses⟩ := st
  refine ⟨?_, ?_, ?_⟩
  · intro hms hok
    cases msc with
    | none => simp at hms
    | some k => simp [sendEmail, hok]
  · intro hms hsg hok
    subst hms
    replace hsg : sge = true := hsg
    subst hsg
    simp [sendEmail, hok]
  · intro hms hsg hses hok
    subst hms
    replace hsg : sge = false := hsg
    subst hsg
    cases ses with
    | none => simp at hses
    | some c => simp [sendEmail, hok]

/-- Claim C1 (amended), witness: a SendGrid delivery failure is logged
and thrown. -/
theorem sendEmail_failure_logged_and_thrown_witness :
    (sendEmail { mailerSendClient := none, sendGridEnabled := true, sesClient := none }
        { sender := "noreply@example.com", senderName := none }
        { mailerSendOk := true, sendGridOk := false, sesOk := true, sesMessageId := "" }
        ["user@example.com"] "Hello" "<p>Hello</p>" none).thrown =
      some "Failed to send email via SendGrid" ∧
    EmailEvent.logError "Failed to send email via SendGrid:" ∈
      (sendEmail { mailerSendClient := none, sendGridEnabled := true, sesClient := none }
        { sender := "noreply@example.com", senderName := none }
        { mailerSendOk := true, sendGridOk := false, sesOk := true, sesMessageId := "" }
        ["user@example.com"] "Hello" "<p>Hello</p>" none).logs := by
  exact (sendEmail_failure_logged_and_thrown
      { mailerSendClient := none, sendGridEnabled := true, sesClient := none }
      { sender := "noreply@example.com", senderName := none }
      { mailerSendOk := true, sendGridOk := false, sesOk := true, sesMessageId := "" }
      ["user@example.com"] "Hello" "<p>Hello</p>" none).2.1 rfl rfl rfl

/-- Claim C6: when no email provider is configured (no MailerSend
client, SendGrid disabled, no SES client), `sendEmail` completes without
error for every input: it logs a warning and prints the recipient list,
subject, and body to the console, and throws nothing. -/
theorem sendEmail_no_provider_console
    (env : EmailEnv) (cfg : EmailConfigOptions) (oc : ProviderOutcomes)
    (toAddrs : List String) (subject body : String) (unsub : Option String)
    (h1 : jsTruthy env.mailersendApiKey = false)
    (h2 : jsTruthy env.sendgridApiKey = false)
    (h3 : jsTruthy env.awsSesAccessKeyId = false) :
    sendEmail (construct env) cfg oc toAddrs subject body unsub =
      { logs := [.logWarn "AWS SES and SendGrid not configured, email not sent.",
                 .consoleLog ("\n\nTo: " ++ String.intercalate ", " toAddrs),
                 .consoleLog ("Subject: " ++ subject),
                 .consoleLog (body ++ "\n\n")],
        thrown := none } := by
  simp [construct, h1, h2, h3, sendEmail]

/-- Claim C6, witness: with an empty environment the console fallback
runs and nothing is thrown. -/
theorem sendEmail_no_provider_console_witness :
    sendEmail (construct { mailersendApiKey := none, sendgridApiKey := none,
                           awsSesAccessKeyId := none, awsSesSecretAccessKey := none,
                           awsSesRegion := none })
        { sender := "noreply@example.com", senderName := none }
        { mailerSendOk := true, sendGridOk := true, sesOk := true, sesMessageId := "" }
        ["user@example.com"] "Hi" "Body" none =
      { logs := [.logWarn "AWS SES and SendGrid not configured, email not sent.",
                 .consoleLog "\n\nTo: user@example.com",
                 .consoleLog "Subject: Hi",
                 .consoleLog "Body\n\n"],
        thrown := none } := by
  have h := sendEmail_no_provider_console
      { mailersendApiKey := none, sendgridApiKey := none, awsSesAccessKeyId := none,
        awsSesSecretAccessKey := none, awsSesRegion := none }
      { sender := "noreply@example.com", senderName := none }
      { mailerSendOk := true, sendGridOk := true, sesOk := true, sesMessageId := "" }
      ["user@example.com"] "Hi" "Body" none rfl rfl rfl
  rw [h]
  decide

end EmailClaims


namespace TokenService

/-- A list containing two distinct elements satisfying `p` has `countP`
at least two. -/
theorem countP_two_le {α : Type} (p : α → Bool) {l : List α} {a b : α}
    (ha : a ∈ l) (hb : b ∈ l) (hne : a ≠ b) (hpa : p a = true) (hpb : p b = true) :
    2 ≤ l.countP p := by
  induction l with
  | nil => simp at ha
  | cons x t ih =>
      rw [List.countP_cons]
      rcases List.mem_cons.mp ha with rfl | ha2
      · rcases List.mem_cons.mp hb with rfl | hb2
        · exact absurd rfl hne
        · have h1 : 0 < t.countP p := List.countP_pos_iff.mpr ⟨b, hb2, hpb⟩
          rw [if_pos hpa]
          omega
      · rcases List.mem_cons.mp hb with rfl | hb2
        · have h1 : 0 < t.countP p := List.countP_pos_iff.mpr ⟨a, ha2, hpa⟩
          rw [if_pos hpb]
          omega
        · have := ih ha2 hb2
          omega

/-- Every operation only grows the freshness counter. -/
theorem nextId_step_le (s : TokenStore) (op : TokenOp) :
    s.nextId ≤ (s.step op).nextId := by
  cases op with
  | issue u now ttl => simp [TokenStore.step, TokenStore.issue]
  | refresh t now ttl =>
      simp only [TokenStore.step, TokenStore.refresh]
      cases hf : s.records.find? (fun r => r.tokenId == t) with
      | none => simp
      | some r =>
          simp only []
          split
          · simp
          · split
            · simp [TokenStore.revokeFamily]
            · simp
  | revokeFamily f => simp [TokenStore.step, TokenStore.revokeFamily]
  | revokeUser u => simp [TokenStore.step, TokenStore.revokeUser]

/-- Every operation preserves well-formedness of stored ids. -/
theorem wf_step {s : TokenStore} (hwf : s.wf) (op : TokenOp) : (s.step op).wf := by
  cases op with
  | issue u now ttl =>
      intro r hr
      simp only [TokenStore.step, TokenStore.issue] at hr ⊢
      rcases List.mem_append.mp hr with h | h
      · have := hwf r h
        constructor <;> omega
      · simp at h
        subst h
        constructor <;> simp
  | refresh t now ttl =>
      simp only [TokenStore.step, TokenStore.refresh]
      cases hf : s.records.find? (fun r => r.tokenId == t) with
      | none => exact hwf
      | some r =>
          simp only []
          split
          · exact hwf
          · split
            · intro q hq
              simp only [TokenStore.revokeFamily, List.mem_map] at hq
              obtain ⟨q0, hq0, hgq⟩ := hq
              have h0 := hwf q0 hq0
              split at hgq <;> subst hgq <;> simpa using h0
            · intro q hq
              rcases List.mem_append.mp hq with h | h
              · simp only [List.mem_map] at h
                obtain ⟨q0, hq0, hgq⟩ := h
                have h0 := hwf q0 hq0
                split at hgq <;> subst hgq <;> simp <;> omega
              · simp at h
                subst h
                have h0 := hwf r (List.mem_of_find?_eq_some hf)
                constructor <;> simp
                omega
  | revokeFamily f =>
      intro q hq
      simp only [TokenStore.revokeFamily, TokenStore.step, List.mem_map] at hq
      obtain ⟨q0, hq0, hgq⟩ := hq
      have h0 := hwf q0 hq0
      split at hgq <;> subst hgq <;> simpa using h0
  | revokeUser u =>
      intro q hq
      simp only [TokenStore.revokeUser, TokenStore.step, List.mem_map] at hq
      obtain ⟨q0, hq0, hgq⟩ := hq
      have h0 := hwf q0 hq0
      split at hgq <;> subst hgq <;> simpa using h0

end TokenService

namespace TokenService

/-- `revokeFamily` leaves every record of the family revoked. -/
theorem revokeFamily_all_revoked (s : TokenStore) (f : Nat) :
    (s.revokeFamily f).familyAllRevoked f := by
  intro q hq hfam
  simp only [TokenStore.revokeFamily, List.mem_map] at hq
  obtain ⟨q0, hq0, hgq⟩ := hq
  split at hgq
  · subst hgq
    rfl
  · subst hgq
    next h =>
      exact absurd (by simp [hfam]) h

/-- Once every record of a family is revoked, every operation keeps it
so (records of the family are never un-revoked, and no new record can
join the family because a live parent or a fresh family id would be
needed). -/
theorem familyAllRevoked_step {s : TokenStore} {f : Nat}
    (hf : f < s.nextId) (hrev : s.familyAllRevoked f) (op : TokenOp) :
    (s.step op).familyAllRevoked f := by
  cases op with
  | issue u now ttl =>
      intro q hq hfam
      simp only [TokenStore.step, TokenStore.issue] at hq
      rcases List.mem_append.mp hq with h | h
      · exact hrev q h hfam
      · simp at h
        subst h
        simp at hfam
        omega
  | refresh t now ttl =>
      simp only [TokenStore.step, TokenStore.refresh]
      cases hfind : s.records.find? (fun r => r.tokenId == t) with
      | none => exact hrev
      | some r =>
          simp only []
          split
          · exact hrev
          · split
            · intro q hq hfam
              simp only [TokenStore.revokeFamily, List.mem_map] at hq
              obtain ⟨q0, hq0, hgq⟩ := hq
              split at hgq <;> subst hgq
              · rfl
              · exact hrev q0 hq0 hfam
            · next hlive =>
                intro q hq hfam
                rcases List.mem_append.mp hq with h | h
                · simp only [List.mem_map] at h
                  obtain ⟨q0, hq0, hgq⟩ := h
                  split at hgq <;> subst hgq
                  · exact hrev q0 hq0 hfam
                  · exact hrev q0 hq0 hfam
                · simp at h
                  subst h
                  simp at hfam
                  have hrm := List.mem_of_find?_eq_some hfind
                  have := hrev r hrm hfam
                  simp [this] at hlive
  | revokeFamily f2 =>
      intro q hq hfam
      simp only [TokenStore.step, TokenStore.revokeFamily, List.mem_map] at hq
      obtain ⟨q0, hq0, hgq⟩ := hq
      split at hgq <;> subst hgq
      · rfl
      · exact hrev q0 hq0 hfam
  | revokeUser u =>
      intro q hq hfam
      simp only [TokenStore.step, TokenStore.revokeUser, List.mem_map] at hq
      obtain ⟨q0, hq0, hgq⟩ := hq
      split at hgq <;> subst hgq
      · rfl
      · exact hrev q0 hq0 hfam

/-- Well-formedness, the family-id bound, and family-wide revocation all
persist through any later sequence of operations. -/
theorem store_invariants_runFrom (ops : List TokenOp) (s : TokenStore) (f : Nat)
    (hwf : s.wf) (hf : f < s.nextId) (hrev : s.familyAllRevoked f) :
    (s.runFrom ops).wf ∧ f < (s.runFrom ops).nextId ∧
      (s.runFrom ops).familyAllRevoked f := by
  induction ops generalizing s with
  | nil => exact ⟨hwf, hf, hrev⟩
  | cons op rest ih =>
      have h1 := wf_step hwf op
      have h2 := Nat.lt_of_lt_of_le hf (nextId_step_le s op)
      have h3 := familyAllRevoked_step hf hrev op
      exact ih (s.step op) h1 h2 h3

/-- A refresh that finds a record in an all-revoked family never
rotates: the outcome is `Expired` or `ReuseDetected`. -/
theorem refresh_all_revoked_family_fails (s : TokenStore) (t now ttl : Nat)
    (q : RefreshTokenRecord)
    (hq : s.records.find? (fun p => p.tokenId == t) = some q)
    (f : Nat) (hfam : q.familyId = f) (hrev : s.familyAllRevoked f) :
    ∀ n, (s.refresh t now ttl).2 ≠ .rotated n := by
  intro n
  have hqm := List.mem_of_find?_eq_some hq
  have hqrev : q.revoked = true := hrev q hqm hfam
  simp only [TokenStore.refresh, hq]
  split
  · simp
  · simp [hqrev]

end TokenService

namespace TokenService

/-- Well-formedness holds along any run. -/
theorem wf_runFrom (ops : List TokenOp) (s : TokenStore) (hwf : s.wf) :
    (s.runFrom ops).wf := by
  induction ops generalizing s with
  | nil => exact hwf
  | cons op rest ih => exact ih (s.step op) (wf_step hwf op)

/-- Every reachable store is well-formed. -/
theorem wf_run (ops : List TokenOp) : (TokenStore.run ops).wf := by
  refine wf_runFrom ops TokenStore.empty ?_
  intro r hr
  simp [TokenStore.empty] at hr

/-- One operation preserves the at-most-one-active-tip-per-family
invariant (given well-formed ids). -/
theorem activeInFamily_step {s : TokenStore} (hwf : s.wf)
    (hinv : ∀ f2, s.activeInFamily f2 ≤ 1) (op : TokenOp) (f : Nat) :
    (s.step op).activeInFamily f ≤ 1 := by
  cases op with
  | issue u now ttl =>
      simp only [TokenStore.step, TokenStore.issue, TokenStore.activeInFamily,
        List.countP_append]
      by_cases hf : (s.nextId == f) = true
      · have hfe : s.nextId = f := beq_iff_eq.mp hf
        have h0 : s.records.countP (fun r => r.familyId == f && r.activeTip) = 0 := by
          rw [List.countP_eq_zero]
          intro r hr
          have h2 := (hwf r hr).2
          simp only [Bool.and_eq_true, beq_iff_eq, not_and]
          intro h3 _
          omega
        rw [h0]
        simp [RefreshTokenRecord.activeTip, hf, List.countP_cons]
      · have hinvf := hinv f
        simp only [TokenStore.activeInFamily] at hinvf
        simp only [List.countP_cons, List.countP_nil, RefreshTokenRecord.activeTip]
        simp [hf]
        exact hinvf
  | refresh t now ttl =>
      simp only [TokenStore.step, TokenStore.refresh]
      cases hfind : s.records.find? (fun r => r.tokenId == t) with
      | none => exact hinv f
      | some r =>
          simp only []
          split
          · exact hinv f
          · split
            · -- reuse-detection branch: revoking can only lose active tips
              simp only [TokenStore.activeInFamily, TokenStore.revokeFamily,
                List.countP_map]
              have hinvf := hinv f
              simp only [TokenStore.activeInFamily] at hinvf
              refine le_trans (List.countP_mono_left ?_) hinvf
              intro q hq hpq
              by_cases hc : (q.familyId == r.familyId) = true
              · simp only [Function.comp] at hpq
                simp [hc, RefreshTokenRecord.activeTip] at hpq
              · simp only [Function.comp] at hpq
                simpa [hc] using hpq
            · next hnl =>
                -- rotation: the family's one tip is superseded, one new
                -- tip is created in the same family
                have hlive : r.revoked = false ∧ r.supersededBy = none := by
                  simp at hnl
                  exact hnl
                have hrt0 := List.find?_some hfind
                have hrt : (r.tokenId == t) = true := hrt0
                have hrm : r ∈ s.records := List.mem_of_find?_eq_some hfind
                simp only [TokenStore.activeInFamily, List.countP_append]
                by_cases hf2 : (r.familyId == f) = true
                · have hmap : ((s.records.map (fun q =>
                      if q.tokenId == t then { q with supersededBy := some s.nextId }
                      else q)).countP
                        (fun x : RefreshTokenRecord => x.familyId == f && x.activeTip)) = 0 := by
                    rw [List.countP_map, List.countP_eq_zero]
                    intro q hq hpq
                    by_cases hqt : (q.tokenId == t) = true
                    · simp only [Function.comp] at hpq
                      simp [hqt, RefreshTokenRecord.activeTip] at hpq
                    · simp only [Function.comp] at hpq
                      rw [if_neg hqt] at hpq
                      have hpr : ((fun x : RefreshTokenRecord =>
                          x.familyId == f && x.activeTip) q) = true := hpq
                      have hpr2 : ((fun x : RefreshTokenRecord =>
                          x.familyId == f && x.activeTip) r) = true := by
                        simp [hf2, RefreshTokenRecord.activeTip, hlive.1, hlive.2]
                      have hne : q ≠ r := by
                        intro he
                        rw [he] at hqt
                        exact hqt hrt
                      have h2 := countP_two_le
                          (fun x : RefreshTokenRecord => x.familyId == f && x.activeTip)
                          hq hrm hne hpr hpr2
                      have h1 := hinv f
                      simp only [TokenStore.activeInFamily] at h1
                      omega
                  rw [hmap]
                  simp [List.countP_cons, RefreshTokenRecord.activeTip, hf2]
                · have hmaple : ((s.records.map (fun q =>
                      if q.tokenId == t then { q with supersededBy := some s.nextId }
                      else q)).countP
                        (fun x : RefreshTokenRecord => x.familyId == f && x.activeTip)) ≤
                      s.records.countP
                        (fun x : RefreshTokenRecord => x.familyId == f && x.activeTip) := by
                    rw [List.countP_map]
                    refine List.countP_mono_left ?_
                    intro q hq hpq
                    by_cases hqt : (q.tokenId == t) = true
                    · simp only [Function.comp] at hpq
                      simp [hqt, RefreshTokenRecord.activeTip] at hpq
                    · simp only [Function.comp] at hpq
                      rw [if_neg hqt] at hpq
                      exact hpq
                  have hsingle : (List.countP
                      (fun x : RefreshTokenRecord => x.familyId == f && x.activeTip)
                      [{ tokenId := s.nextId, userId := r.userId, familyId := r.familyId,
                         issuedAt := now, expiresAt := now + ttl, revoked := false,
                         supersededBy := none }]) = 0 := by
                    simp [List.countP_cons, RefreshTokenRecord.activeTip, hf2]
                  rw [hsingle]
                  have h1 := hinv f
                  simp only [TokenStore.activeInFamily] at h1
                  omega
  | revokeFamily f2 =>
      simp only [TokenStore.step, TokenStore.revokeFamily, TokenStore.activeInFamily,
        List.countP_map]
      have hinvf := hinv f
      simp only [TokenStore.activeInFamily] at hinvf
      refine le_trans (List.countP_mono_left ?_) hinvf
      intro q hq hpq
      by_cases hc : (q.familyId == f2) = true
      · simp only [Function.comp] at hpq
        simp [hc, RefreshTokenRecord.activeTip] at hpq
      · simp only [Function.comp] at hpq
        simpa [hc] using hpq
  | revokeUser u =>
      simp only [TokenStore.step, TokenStore.revokeUser, TokenStore.activeInFamily,
        List.countP_map]
      have hinvf := hinv f
      simp only [TokenStore.activeInFamily] at hinvf
      refine le_trans (List.countP_mono_left ?_) hinvf
      intro q hq hpq
      by_cases hc : (q.userId == u) = true
      · simp only [Function.comp] at hpq
        simp [hc, RefreshTokenRecord.activeTip] at hpq
      · simp only [Function.comp] at hpq
        simpa [hc] using hpq

end TokenService

namespace TokenService

/-- The at-most-one-active-tip invariant holds along any run from a
well-formed store satisfying it. -/
theorem activeInFamily_runFrom (ops : List TokenOp) (s : TokenStore)
    (hwf : s.wf) (hinv : ∀ f, s.activeInFamily f ≤ 1) :
    ∀ f, (s.runFrom ops).activeInFamily f ≤ 1 := by
  induction ops generalizing s with
  | nil => exact hinv
  | cons op rest ih =>
      exact ih (s.step op) (wf_step hwf op) (activeInFamily_step hwf hinv op)

/-- Every reachable store has at most one active tip per family. -/
theorem activeInFamily_run (ops : List TokenOp) (f : Nat) :
    (TokenStore.run ops).activeInFamily f ≤ 1 := by
  refine activeInFamily_runFrom ops TokenStore.empty ?_ ?_ f
  · intro r hr
    simp [TokenStore.empty] at hr
  · intro f2
    simp [TokenStore.empty, TokenStore.activeInFamily]

end TokenService

open TokenService in
/-- Claim C9: in every reachable store state, each refresh-token family
contains at most one live (non-revoked, unexpired, unsuperseded) record;
reachability quantifies over all operation sequences from the empty
store, so the invariant is established by `issue` (fresh family, one
live record) and preserved by `refresh` (supersede-and-create within
the family) and by both revocation operations. -/
theorem refresh_family_single_live (ops : List TokenOp) (f now : Nat) :
    (TokenStore.run ops).records.countP
        (fun r => r.familyId == f && r.live now) ≤ 1 := by
  refine le_trans (List.countP_mono_left ?_) (activeInFamily_run ops f)
  intro r _ h
  simp only [RefreshTokenRecord.live, RefreshTokenRecord.activeTip,
    Bool.and_eq_true] at h ⊢
  exact ⟨h.1, h.2.1.1, h.2.2⟩

open TokenService in
/-- Claim C8: a refresh presenting a token whose stored record exists,
is unexpired, but is not live (already revoked or already superseded)
revokes every record of that token's family before returning and
returns `ReuseDetected`; and afterwards, whatever operations follow,
any refresh presenting a token of that family fails (is never a
successful rotation). -/
theorem refresh_reuse_detection (ops : List TokenOp) (tokenId now ttl : Nat)
    (r : TokenService.RefreshTokenRecord)
    (hfind : (TokenStore.run ops).records.find? (fun q => q.tokenId == tokenId) = some r)
    (hexp : now < r.expiresAt)
    (hnotlive : r.revoked = true ∨ r.supersededBy ≠ none) :
    ((TokenStore.run ops).refresh tokenId now ttl).2 = .reuseDetected ∧
    (∀ q ∈ ((TokenStore.run ops).refresh tokenId now ttl).1.records,
        q.familyId = r.familyId → q.revoked = true) ∧
    (∀ later : List TokenOp, ∀ t2 now2 ttl2 : Nat,
        ∀ q : TokenService.RefreshTokenRecord,
        (TokenStore.runFrom (((TokenStore.run ops).refresh tokenId now ttl).1) later).records.find?
            (fun p => p.tokenId == t2) = some q →
        q.familyId = r.familyId →
        ∀ n, ((TokenStore.runFrom (((TokenStore.run ops).refresh tokenId now ttl).1) later).refresh
            t2 now2 ttl2).2 ≠ .rotated n) := by
  have hwf : (TokenStore.run ops).wf := wf_run ops
  have hcond : (r.revoked || !(r.supersededBy == none)) = true := by
    rcases hnotlive with h | h
    · simp [h]
    · cases hs : r.supersededBy with
      | none => exact absurd hs h
      | some x => simp
  have hne2 : ¬ (r.expiresAt ≤ now) := by omega
  have hres : (TokenStore.run ops).refresh tokenId now ttl =
      ((TokenStore.run ops).revokeFamily r.familyId, .reuseDetected) := by
    simp only [TokenStore.refresh, hfind]
    rw [if_neg hne2, if_pos hcond]
  refine ⟨by rw [hres], ?_, ?_⟩
  · rw [hres]
    exact fun q hq hfam => revokeFamily_all_revoked (TokenStore.run ops) r.familyId q hq hfam
  · intro later t2 now2 ttl2 q hq hfam n
    rw [hres] at hq ⊢
    have hwf2 : ((TokenStore.run ops).revokeFamily r.familyId).wf := by
      have := wf_step hwf (TokenOp.revokeFamily r.familyId)
      simpa [TokenStore.step] using this
    have hflt : r.familyId < (TokenStore.run ops).nextId :=
      (hwf r (List.mem_of_find?_eq_some hfind)).2
    have hflt2 : r.familyId < ((TokenStore.run ops).revokeFamily r.familyId).nextId := by
      simpa [TokenStore.revokeFamily] using hflt
    have hrev := revokeFamily_all_revoked (TokenStore.run ops) r.familyId
    have h3 := store_invariants_runFrom later ((TokenStore.run ops).revokeFamily r.familyId)
        r.familyId hwf2 hflt2 hrev
    exact refresh_all_revoked_family_fails _ t2 now2 ttl2 q hq r.familyId hfam h3.2.2 n

open TokenService in
/-- Claim C8, witness: issue for user 7 (family 0, token 1), rotate
token 1 (creating token 2), then replay superseded token 1 at time 20:
the outcome is `ReuseDetected`, and after a later unrelated issue,
refreshing family-0 token 2 is not a successful rotation. -/
theorem refresh_reuse_detection_witness :
    ((TokenStore.run [TokenOp.issue 7 0 100, TokenOp.refresh 1 10 100]).refresh 1 20 100).2 =
      TokenService.RefreshOutcome.reuseDetected ∧
    ((TokenStore.runFrom
        (((TokenStore.run [TokenOp.issue 7 0 100, TokenOp.refresh 1 10 100]).refresh 1 20 100).1)
        [TokenOp.issue 9 40 100]).refresh 2 50 100).2 ≠
      TokenService.RefreshOutcome.rotated 5 := by
  have h := refresh_reuse_detection [TokenOp.issue 7 0 100, TokenOp.refresh 1 10 100] 1 20 100
      { tokenId := 1, userId := 7, familyId := 0, issuedAt := 0, expiresAt := 100,
        revoked := false, supersededBy := some 2 }
      (by decide) (by decide) (Or.inr (by decide))
  refine ⟨h.1, ?_⟩
  exact h.2.2 [TokenOp.issue 9 40 100] 2 50 100
      { tokenId := 2, userId := 7, familyId := 0, issuedAt := 10, expiresAt := 110,
        revoked := true, supersededBy := none }
      (by decide) (by decide) 5

open Owneable in
/-- Claim C10: with no override installed, the ownership policy defaults
`canView`, `canEdit`, and `canDelete` all return true exactly when the
viewer exists and its id equals the resource's owner id, and false for
every other viewer, including a missing (null) viewer. -/
theorem ownership_defaults_owner_only (e : OwneableEntity) (u : Option ViewerUser) :
    (canView e u = true ↔ ∃ v, u = some v ∧ v.id = e.owner) ∧
    canEdit e u = canView e u ∧
    canDelete e u = canView e u ∧
    canView e none = false := by
  refine ⟨?_, by cases u <;> rfl, by cases u <;> rfl, rfl⟩
  cases u with
  | none => simp [canView]
  | some v => simp [canView]

open Owneable in
/-- Claim C10, witness: the owner may view, a stranger and the missing
viewer may not. -/
theorem ownership_defaults_owner_only_witness :
    canView { owner := 3 } (some { id := 3 }) = true ∧
    canEdit { owner := 3 } (some { id := 4 }) = false := by
  constructor
  · exact (ownership_defaults_owner_only { owner := 3 } (some { id := 3 })).1.mpr
      ⟨{ id := 3 }, rfl, rfl⟩
  · have h := (ownership_defaults_owner_only { owner := 3 } (some { id := 4 })).2.1
    rw [h]
    decide
